import Mathlib

/-!
Verification of the orchestration core of the exam-preparation agent
(`backend/agents/autonomous_langgraph_agent.py`).

The module is shallowly embedded: Python dictionaries produced by
`json.loads` are modelled by the inductive type `JValue` (JSON numbers are
modelled as integers; payloads containing other numeric forms fall to the
parse-failure path, which the code treats the same as any other unparsable
payload), Python string methods by executable Lean functions over
`List Char`, and the two external collaborators — the Model Client
(`self.llm.invoke`) and the Capability Registry (`self.tools_by_name`) —
by function parameters.  An exception raised by Python code that the
module does not catch is modelled by `Except.error` carrying the
exception message.
-/

namespace AgentProof

/-- Model of a JSON value as produced by `json.loads` (numbers restricted
to integers; see the module header). -/
inductive JValue where
  | null : JValue
  | bool : Bool → JValue
  | num : Int → JValue
  | str : String → JValue
  | arr : List JValue → JValue
  | obj : List (String × JValue) → JValue

/-- Lookup of a key in the association list backing a JSON object
(Python `dict.__getitem__` / `dict.get`). -/
def jlookup (fs : List (String × JValue)) (k : String) : Option JValue :=
  match fs with
  | [] => none
  | (k', v) :: rest => if k' == k then some v else jlookup rest k

/-- Python `dict.get(k, default)`. -/
def jlookupD (fs : List (String × JValue)) (k : String) (d : JValue) : JValue :=
  (jlookup fs k).getD d

/-- Python `plan.get(k)` on a parsed JSON object; `none` models both a
missing key and a non-object receiver. -/
def JValue.lookup? : JValue → String → Option JValue
  | .obj fs, k => jlookup fs k
  | _, _ => none

/-- Python `plan.get(k, default)` on a parsed JSON object. -/
def JValue.lookupD (v : JValue) (k : String) (d : JValue) : JValue :=
  (v.lookup? k).getD d

/-- Python truthiness of a JSON value (`bool(v)`). -/
def JValue.truthy : JValue → Bool
  | .null => false
  | .bool b => b
  | .num n => n != 0
  | .str s => s != ""
  | .arr xs => !xs.isEmpty
  | .obj fs => !fs.isEmpty

/-- Python truthiness of an optional value, with `none` (a missing key,
i.e. Python `None`) falsy. -/
def truthyOpt : Option JValue → Bool
  | none => false
  | some v => v.truthy

/-- Contiguous-sublist test on character lists. -/
def infixOfChars (needle : List Char) : List Char → Bool
  | [] => needle.isEmpty
  | c :: rest => needle.isPrefixOf (c :: rest) || infixOfChars needle rest

/-- Python `needle in hay` on strings (substring containment). -/
def substrOf (needle hay : String) : Bool :=
  infixOfChars needle.toList hay.toList

/-- Python `str.lower` restricted to ASCII, implemented over the
character list so that it reduces in the kernel. -/
def strLower (s : String) : String :=
  String.mk (s.toList.map Char.toLower)

/-- Python whitespace test for `str.strip`. -/
def isStripWs (c : Char) : Bool :=
  c == ' ' || c == '\t' || c == '\n' || c == '\r' || c == '\x0b' || c == '\x0c'

/-- Python `str.strip()` (leading and trailing whitespace removed),
implemented over the character list. -/
def strTrim (s : String) : String :=
  String.mk (((s.toList.dropWhile isStripWs).reverse.dropWhile isStripWs).reverse)

/-- Index of the last occurrence of a character (Python `str.rfind`),
`none` when absent. -/
def lastIdxOf (c : Char) (cs : List Char) : Option Nat :=
  match cs.reverse.findIdx? (· == c) with
  | none => none
  | some k => some (cs.length - 1 - k)

/-- JSON whitespace test. -/
def isJsonWs (c : Char) : Bool :=
  c == ' ' || c == '\n' || c == '\t' || c == '\r'

/-- Drop leading JSON whitespace. -/
def skipWs : List Char → List Char
  | [] => []
  | c :: cs => if isJsonWs c then skipWs cs else c :: cs

/-- Body of a JSON string literal after the opening quote; returns the
decoded characters and the input after the closing quote.  The escapes
`\\n`, `\\t`, `\\r` are decoded; any other escaped character stands for
itself (enough for `\\"` and `\\\\`). -/
def parseStrChars : Nat → List Char → Option (List Char × List Char)
  | 0, _ => none
  | _, [] => none
  | fuel + 1, c :: cs =>
    if c == '"' then some ([], cs)
    else if c == '\\' then
      match cs with
      | [] => none
      | d :: cs2 =>
        let e := if d == 'n' then '\n' else if d == 't' then '\t'
                 else if d == 'r' then '\r' else d
        match parseStrChars fuel cs2 with
        | none => none
        | some (s, rest) => some (e :: s, rest)
    else
      match parseStrChars fuel cs with
      | none => none
      | some (s, rest) => some (c :: s, rest)

/-- Decimal digits at the head of the input, as a natural number. -/
def parseDigits (cs : List Char) : Option (Nat × List Char) :=
  let ds := cs.takeWhile (·.isDigit)
  if ds.isEmpty then none
  else some (ds.foldl (fun acc c => acc * 10 + (c.toNat - 48)) 0, cs.dropWhile (·.isDigit))

mutual

/-- Recursive-descent parser for the JSON fragment the agent consumes
(null, booleans, integers, strings, arrays, objects); models
`json.loads` on that fragment.  Inputs outside the fragment fail, which
the embedding treats like any other `json.JSONDecodeError`. -/
def parseVal : Nat → List Char → Option (JValue × List Char)
  | 0, _ => none
  | fuel + 1, cs =>
    match skipWs cs with
    | [] => none
    | c :: rest =>
      if c == 'n' then
        if ['u', 'l', 'l'].isPrefixOf rest then some (.null, rest.drop 3) else none
      else if c == 't' then
        if ['r', 'u', 'e'].isPrefixOf rest then some (.bool true, rest.drop 3) else none
      else if c == 'f' then
        if ['a', 'l', 's', 'e'].isPrefixOf rest then some (.bool false, rest.drop 4) else none
      else if c == '"' then
        match parseStrChars (fuel + 1) rest with
        | none => none
        | some (s, rest2) => some (.str (String.mk s), rest2)
      else if c == '-' then
        match parseDigits rest with
        | none => none
        | some (n, rest2) => some (.num (-(n : Int)), rest2)
      else if c.isDigit then
        match parseDigits (c :: rest) with
        | none => none
        | some (n, rest2) => some (.num (n : Int), rest2)
      else if c == '[' then
        match skipWs rest with
        | ']' :: rest2 => some (.arr [], rest2)
        | _ =>
          match parseArrItems fuel rest with
          | none => none
          | some (xs, rest2) => some (.arr xs, rest2)
      else if c == '\x7b' then
        match skipWs rest with
        | '\x7d' :: rest2 => some (.obj [], rest2)
        | _ =>
          match parseObjItems fuel rest with
          | none => none
          | some (fs, rest2) => some (.obj fs, rest2)
      else none

/-- Comma-separated array items up to the closing bracket. -/
def parseArrItems : Nat → List Char → Option (List JValue × List Char)
  | 0, _ => none
  | fuel + 1, cs =>
    match parseVal fuel cs with
    | none => none
    | some (v, rest) =>
      match skipWs rest with
      | ',' :: rest2 =>
        match parseArrItems fuel rest2 with
        | none => none
        | some (xs, rest3) => some (v :: xs, rest3)
      | ']' :: rest2 => some ([v], rest2)
      | _ => none

/-- Comma-separated `"key": value` pairs up to the closing brace. -/
def parseObjItems : Nat → List Char → Option (List (String × JValue) × List Char)
  | 0, _ => none
  | fuel + 1, cs =>
    match skipWs cs with
    | '"' :: rest =>
      match parseStrChars fuel rest with
      | none => none
      | some (k, rest2) =>
        match skipWs rest2 with
        | ':' :: rest3 =>
          match parseVal fuel rest3 with
          | none => none
          | some (v, rest4) =>
            match skipWs rest4 with
            | ',' :: rest5 =>
              match parseObjItems fuel rest5 with
              | none => none
              | some (fs, rest6) => some ((String.mk k, v) :: fs, rest6)
            | '\x7d' :: rest5 => some ([(String.mk k, v)], rest5)
            | _ => none
        | _ => none
    | _ => none

end

/-- Model of `json.loads` on a whole string: the parse must consume the
entire input up to trailing whitespace. -/
def jsonParse (s : String) : Option JValue :=
  match parseVal (4 * (s.toList.length + 1)) s.toList with
  | none => none
  | some (v, rest) => if (skipWs rest).isEmpty then some v else none

mutual

/-- Python `repr` of a value obtained from `json.loads` (used by
f-string interpolation for non-string values nested in containers). -/
def pyRepr : JValue → String
  | .null => "None"
  | .bool b => if b then "True" else "False"
  | .num n => toString n
  | .str s => "\x27" ++ s ++ "\x27"
  | .arr xs => "[" ++ pyReprList xs ++ "]"
  | .obj fs => "\x7b" ++ pyReprFields fs ++ "\x7d"

/-- Comma-separated `repr` of list elements. -/
def pyReprList : List JValue → String
  | [] => ""
  | [x] => pyRepr x
  | x :: xs => pyRepr x ++ ", " ++ pyReprList xs

/-- Comma-separated `repr` of dict entries. -/
def pyReprFields : List (String × JValue) → String
  | [] => ""
  | [(k, v)] => "\x27" ++ k ++ "\x27: " ++ pyRepr v
  | (k, v) :: fs => "\x27" ++ k ++ "\x27: " ++ pyRepr v ++ ", " ++ pyReprFields fs

end

/-- Python `str` of a value obtained from `json.loads` (f-string
interpolation): a string renders as itself, containers via `repr`. -/
def pyStr : JValue → String
  | .str s => s
  | v => pyRepr v

/-- A LangChain message in the workflow state.  Only the two roles the
agent creates and inspects are modelled (`HumanMessage`, `AIMessage`). -/
inductive Msg where
  | human : String → Msg
  | ai : String → Msg

/-- One entry of `state["tool_results"]` as built by `_executor_node`. -/
structure ToolResult where
  tool_name : Option JValue
  parameters : List (String × JValue)
  reason : JValue
  result : String
  success : Bool

/-- The `AgentState` TypedDict.  `iteration_count` and `max_iterations`
are carried but never read by any node, exactly as in the source. -/
structure AgentState where
  messages : List Msg
  user_id : String
  session_id : String
  plan : Option JValue
  tool_results : List ToolResult
  iteration_count : Nat
  max_iterations : Nat
  next_action : String

/-- Outcome of one `self.llm.invoke(...)` call: the call either raises
(transport error, modelled with its message) or returns a completion
text.  The Model Client is external, so each of the two call sites is
modelled by such an oracle keyed by the user question appearing in the
prompt. -/
inductive LLMBehavior where
  | raises : String → LLMBehavior
  | replies : String → LLMBehavior

/-- The Capability Registry (`self.tools_by_name`): a name resolves to a
capability or not; an invoked capability returns a string result
(`str(result)`) or raises with a message. -/
def Registry := String → Option (List (String × JValue) → Except String String)

/-- Default parameters of the practice fallback invocation; note the
literal `user_id` value `"fallback"`. -/
def practiceParams : List (String × JValue) :=
  [("user_id", .str "fallback"), ("topic", .str "Grammar"), ("difficulty", .str "medium")]

/-- The single invocation selected by the practice fallback branch. -/
def practiceSpec : JValue :=
  .obj [("tool_name", .str "get_practice_question"),
        ("parameters", .obj practiceParams),
        ("reason", .str "User wants practice questions")]

/-- Fallback plan returned for practice-related requests
(`_fallback_plan`, first keyword set). -/
def practicePlan : JValue :=
  .obj [("needs_tools", .bool true),
        ("reasoning", .str "Fallback: Detected practice-related request"),
        ("tools_to_use", .arr [practiceSpec])]

/-- Default parameters of the progress fallback invocation. -/
def progressParams : List (String × JValue) :=
  [("user_id", .str "fallback")]

/-- The single invocation selected by the progress fallback branch. -/
def progressSpec : JValue :=
  .obj [("tool_name", .str "get_learning_progress"),
        ("parameters", .obj progressParams),
        ("reason", .str "User wants to see progress")]

/-- Fallback plan returned for progress-related requests
(`_fallback_plan`, second keyword set). -/
def progressPlan : JValue :=
  .obj [("needs_tools", .bool true),
        ("reasoning", .str "Fallback: Detected progress request"),
        ("tools_to_use", .arr [progressSpec])]

/-- Default parameters of the English-search fallback invocation; the
query carries the original request text and there is no `user_id`
entry. -/
def englishParams (user_question : String) : List (String × JValue) :=
  [("query", .str user_question), ("max_results", .num 5)]

/-- The single invocation selected by the English-learning fallback
branch. -/
def englishSpec (user_question : String) : JValue :=
  .obj [("tool_name", .str "english_search_document"),
        ("parameters", .obj (englishParams user_question)),
        ("reason", .str "User needs English learning content")]

/-- Fallback plan returned for English-learning requests
(`_fallback_plan`, third keyword set). -/
def englishPlan (user_question : String) : JValue :=
  .obj [("needs_tools", .bool true),
        ("reasoning", .str "Fallback: Detected English learning request"),
        ("tools_to_use", .arr [englishSpec user_question])]

/-- Fallback plan when no keyword set matches (`_fallback_plan`, final
branch). -/
def noToolsPlan : JValue :=
  .obj [("needs_tools", .bool false),
        ("reasoning", .str "Fallback: General question, no tools needed"),
        ("tools_to_use", .arr [])]

/-- Plan stored when the planner finds no human message. -/
def noQuestionPlan : JValue :=
  .obj [("action", .str "respond_directly"),
        ("reason", .str "No user question found")]

/-- The `_fallback_plan` keyword heuristic: membership of fixed keyword
sets in the lower-cased request, in a fixed priority order. -/
def fallback_plan (user_question : String) : JValue :=
  let question_lower := strLower user_question
  if ["practice", "question", "start"].any (fun w => substrOf w question_lower) then
    practicePlan
  else if ["progress", "performance"].any (fun w => substrOf w question_lower) then
    progressPlan
  else if ["grammar", "english", "vocabulary"].any (fun w => substrOf w question_lower) then
    englishPlan user_question
  else
    noToolsPlan

/-- Content of the most recent `HumanMessage` (the planner and responder
scan `reversed(state["messages"])`). -/
def lastHuman : List Msg → Option String
  | [] => none
  | .human c :: rest => match lastHuman rest with
    | some c' => some c'
    | none => some c
  | .ai _ :: rest => lastHuman rest

/-- The gate on the planner LLM reply: the stripped text must begin with
an opening brace and end with a closing brace. -/
def bracedText (s : String) : Bool :=
  match s.toList with
  | [] => false
  | c :: rest => c == '\x7b' && (match (c :: rest).getLast? with
    | some d => d == '\x7d'
    | none => false)

/-- Routing condition computed by the planner after a (possibly
fallback) plan was obtained inside the `try` block:
`plan.get("needs_tools", False) and plan.get("tools_to_use")` under
Python truthiness. -/
def planCondition (plan : JValue) : Bool :=
  (plan.lookupD "needs_tools" (.bool false)).truthy && truthyOpt (plan.lookup? "tools_to_use")

/-- Plan accepted from a returned Model Client reply: only a stripped
text that begins with an opening brace, ends with a closing brace and
parses is accepted; any other shape (including a decode error) falls
back to the keyword heuristic. -/
def planFromReply (user_question text : String) : JValue :=
  let plan_text := strTrim text
  if bracedText plan_text then
    match jsonParse plan_text with
    | some p => p
    | none => fallback_plan user_question
  else fallback_plan user_question

/-- Plan and next action computed by `_planner_node` from the message
list: locate the last human message; ask the Model Client; accept only a
braced, parseable reply, otherwise fall back; on a raised Model Client
call, store the fallback plan and unconditionally set
`next_action = "execute_tools"`. -/
def planner_decide (plannerLLM : String → LLMBehavior) (msgs : List Msg) :
    JValue × String :=
  match lastHuman msgs with
  | none => (noQuestionPlan, "respond_directly")
  | some user_question =>
    match plannerLLM user_question with
    | .raises _ => (fallback_plan user_question, "execute_tools")
    | .replies text =>
      let plan := planFromReply user_question text
      (plan, if planCondition plan then "execute_tools" else "respond_directly")

/-- The `_planner_node`: stores the decided plan and next action. -/
def planner_node (plannerLLM : String → LLMBehavior) (s : AgentState) : AgentState :=
  let d := planner_decide plannerLLM s.messages
  { s with plan := some d.1, next_action := d.2 }

/-- The `_route_after_planning` conditional edge: returns
`state["next_action"]`. -/
def route_after_planning (s : AgentState) : String :=
  s.next_action

/-- Injection performed by the executor before calling a capability:
`if "user_id" not in parameters: parameters["user_id"] = state["user_id"]`
(Python dict insertion appends the new key at the end). -/
def withUserId (ps : List (String × JValue)) (uid : String) : List (String × JValue) :=
  if ps.any (fun kv => kv.1 == "user_id") then ps else ps ++ [("user_id", .str uid)]

/-- The `_execute_single_tool` helper: resolve the tool name in the
registry, raising `ValueError("Tool ... not found")` for an unresolved
name (including a missing name, Python `None`), then invoke the
capability.  A non-string name never matches a registry key. -/
def execute_single_tool (registry : Registry) (tool_name : Option JValue)
    (parameters : List (String × JValue)) : Except String String :=
  match tool_name with
  | some (.str name) =>
    match registry name with
    | some capability => capability parameters
    | none => .error ("Tool " ++ name ++ " not found")
  | some v => .error ("Tool " ++ pyStr v ++ " not found")
  | none => .error ("Tool None not found")

/-- Spec entry whose field accesses in the per-invocation loop cannot
raise: the entry is a mapping and its `parameters` value (when present)
is a mapping. -/
def wfSpec : JValue → Bool
  | .obj fs => match jlookupD fs "parameters" (.obj []) with
    | .obj _ => true
    | _ => false
  | _ => false

/-- Result entry built by one iteration of the executor loop on a
well-formed spec: extract name, parameters and reason, inject the user
id when absent, invoke, and record either the stringified result or
`"Error: " ++ message` with `success = False`. -/
def invokeWf (registry : Registry) (uid : String) (spec : JValue) : ToolResult :=
  match spec with
  | .obj fs =>
    let tool_name := jlookup fs "tool_name"
    let ps0 := match jlookupD fs "parameters" (.obj []) with
      | .obj ps => ps
      | _ => []
    let reason := jlookupD fs "reason" (.str "No reason provided")
    let ps := withUserId ps0 uid
    match execute_single_tool registry tool_name ps with
    | .ok r => ⟨tool_name, ps, reason, r, true⟩
    | .error e => ⟨tool_name, ps, reason, "Error: " ++ e, false⟩
  | _ => ⟨none, [], .str "", "", false⟩

/-- One iteration of the executor loop.  The field accesses
`tool_spec.get(...)` and the `parameters` membership test and insertion
happen outside the `try` block, so a non-mapping spec or a non-mapping
`parameters` value raises out of the node uncaught; that uncaught
exception is the `Except.error` case. -/
def runInvocation (registry : Registry) (uid : String) (spec : JValue) :
    Except String ToolResult :=
  match spec with
  | .obj fs =>
    match jlookupD fs "parameters" (.obj []) with
    | .obj _ => .ok (invokeWf registry uid spec)
    | _ => .error "TypeError: parameters value does not support item assignment"
  | _ => .error "AttributeError: tool specification has no attribute get"

/-- Sequencing of the executor loop: each iteration appends one entry;
an uncaught exception abandons the loop and the partial results (the
state field is only assigned after the loop). -/
def mapMExc (f : JValue → Except String ToolResult) :
    List JValue → Except String (List ToolResult)
  | [] => .ok []
  | x :: xs =>
    match f x with
    | .error e => .error e
    | .ok r =>
      match mapMExc f xs with
      | .error e => .error e
      | .ok rs => .ok (r :: rs)

/-- The `_executor_node`: reads `plan.get("tools_to_use", [])`, stores an
empty result list when it is falsy, and otherwise runs the
per-invocation loop.  A truthy non-list value would make the loop raise
on its first element in the source; that is modelled as an error. -/
def executor_node (registry : Registry) (s : AgentState) : Except String AgentState :=
  let plan := s.plan.getD (.obj [])
  let tools_val := plan.lookupD "tools_to_use" (.arr [])
  if !tools_val.truthy then .ok { s with tool_results := [] }
  else
    match tools_val with
    | .arr specs =>
      match mapMExc (runInvocation registry s.user_id) specs with
      | .ok results => .ok { s with tool_results := results }
      | .error e => .error e
    | _ => .error "TypeError: tools_to_use value is not a list of mappings"

/-- Exception discipline of `_enhance_response_with_structured_data`:
`json.JSONDecodeError` and `KeyError` are caught per result (`keyErr`;
decode errors are modelled by the parser returning `none`), every other
exception propagates out of the helper (`hard`). -/
inductive PyErr where
  | keyErr : PyErr
  | hard : String → PyErr

/-- Substring gate guarding the payload scan. -/
def gateSuccess : String := "\x7b\"success\":"

/-- Second alternative of the substring gate. -/
def gateQuestion : String := "\x7b\"question\":"

/-- Payload slice bounded by the first opening brace and the last
closing brace (`find` / `rfind`); `none` when the bounds are missing or
inverted, which skips the result. -/
def extractPayload (rc : String) : Option String :=
  let cs := rc.toList
  match cs.findIdx? (· == '\x7b'), lastIdxOf '\x7d' cs with
  | some json_start, some j =>
    let json_end := j + 1
    if json_start < json_end then
      some (String.mk ((cs.drop json_start).take (json_end - json_start)))
    else none
  | _, _ => none

/-- Indentation of the practice-question template lines (40 spaces, as
in the source f-string). -/
def indent40 : String := "                                        "

/-- Mojibake emoji sequence opening the practice-question template,
reproduced character for character from the source file. -/
def emojiBook : String := "üìö"

/-- Mojibake emoji sequence of the progress header. -/
def emojiChart : String := "üìä"

/-- Mojibake emoji sequence for an excellent topic. -/
def emojiGreen : String := "üü¢"

/-- Mojibake emoji sequence for a good topic. -/
def emojiYellow : String := "üü°"

/-- Mojibake emoji sequence for any other topic status. -/
def emojiRed : String := "üî¥"

/-- The fixed practice-question template appended for a recognized
question payload, with the defaulted field interpolations of the source
f-string. -/
def questionTemplate (qd : List (String × JValue)) : String :=
  "\n\n" ++ indent40 ++ emojiBook ++ " **Practice Question:**\n"
  ++ indent40 ++ "**Topic:** " ++ pyStr (jlookupD qd "topic" (.str "General")) ++ "\n"
  ++ indent40 ++ "**Difficulty:** " ++ pyStr (jlookupD qd "difficulty" (.str "Medium")) ++ "\n\n"
  ++ indent40 ++ pyStr (jlookupD qd "text" (.str "")) ++ "\n\n"
  ++ indent40 ++ "**Options:**\n"
  ++ indent40 ++ pyStr (jlookupD qd "options" (.str "")) ++ "\n\n"
  ++ indent40 ++ "Please provide your answer (A, B, C, or D).\n"
  ++ indent40

/-- Header line of the progress rendering. -/
def progressHeader : String := "\n\n" ++ emojiChart ++ " **Your Learning Progress:**\n"

/-- Python `format(v, ".1f")` on a JSON value: integers (and booleans,
which Python treats as integers) format with one decimal; any other
value raises. -/
def fmt1f : JValue → Except PyErr String
  | .num n => .ok (toString n ++ ".0")
  | .bool b => .ok (if b then "1.0" else "0.0")
  | _ => .error (.hard "ValueError: unknown format code f")

/-- One progress row: `topic["status"]` selects the emoji, then the
f-string reads `topic`, `accuracy` (formatted `.1f`) and
`total_questions`; a missing key raises `KeyError` (caught per result),
a non-mapping entry or unformattable accuracy raises uncaught. -/
def renderTopic (t : JValue) : Except PyErr String :=
  match t with
  | .obj tf =>
    match jlookup tf "status" with
    | none => .error .keyErr
    | some st =>
      let emoji := match st with
        | .str stv => if stv == "excellent" then emojiGreen
                      else if stv == "good" then emojiYellow
                      else emojiRed
        | _ => emojiRed
      match jlookup tf "topic" with
      | none => .error .keyErr
      | some tp =>
        match jlookup tf "accuracy" with
        | none => .error .keyErr
        | some acc =>
          match fmt1f acc with
          | .error e => .error e
          | .ok accs =>
            match jlookup tf "total_questions" with
            | none => .error .keyErr
            | some tq =>
              .ok (emoji ++ " **" ++ pyStr tp ++ "**: " ++ accs ++ "% ("
                   ++ pyStr tq ++ " questions)\n")
  | _ => .error (.hard "TypeError: topic entry is not a mapping")

/-- Concatenated rows of the progress loop. -/
def renderTopics : List JValue → Except PyErr String
  | [] => .ok ""
  | t :: ts =>
    match renderTopic t with
    | .error e => .error e
    | .ok row =>
      match renderTopics ts with
      | .error e => .error e
      | .ok rest => .ok (row ++ rest)

/-- Action taken for one parsed payload object: the question branch
(key `question` present and `success` truthy) appends the question
template, raising uncaught when the question value is not a mapping; the
analytics branch (key `analytics` present and `success` truthy, value
truthy with a `topics` entry) appends the progress rendering of the
first five topics; anything else appends nothing. -/
def payloadAction (fs : List (String × JValue)) : Except PyErr (Option String) :=
  if (jlookup fs "question").isSome && truthyOpt (jlookup fs "success") then
    match jlookup fs "question" with
    | some (.obj qd) => .ok (some (questionTemplate qd))
    | some _ => .error (.hard "AttributeError: question payload has no attribute get")
    | none => .ok none
  else if (jlookup fs "analytics").isSome && truthyOpt (jlookup fs "success") then
    match jlookup fs "analytics" with
    | some analytics =>
      if !analytics.truthy then .ok none
      else
        match analytics with
        | .obj afs =>
          match jlookup afs "topics" with
          | none => .ok none
          | some (.arr ts) =>
            match renderTopics (ts.take 5) with
            | .ok rows => .ok (some (progressHeader ++ rows))
            | .error e => .error e
          | some (.str s) =>
            if s.isEmpty then .ok (some progressHeader)
            else .error (.hard "TypeError: string indices must be integers")
          | some _ => .error (.hard "TypeError: topics value is not sliceable")
        | .str s =>
          if substrOf "topics" s then .error (.hard "TypeError: string indices must be integers")
          else .ok none
        | .arr xs =>
          if xs.any (fun v => match v with | .str sv => sv == "topics" | _ => false) then
            .error (.hard "TypeError: list indices must be integers")
          else .ok none
        | _ => .error (.hard "TypeError: argument is not iterable")
    | none => .ok none
  else .ok none

/-- Processing of one tool result inside
`_enhance_response_with_structured_data`: failed results are skipped;
the substring gate must match; the brace-bounded payload must extract
and parse (a decode failure is caught and skipped, as is a `KeyError`
from the payload action); a recognized payload yields the text to
append. -/
def enhanceOne (r : ToolResult) : Except String (Option String) :=
  if !r.success then .ok none
  else
    let rc := r.result
    if substrOf gateSuccess rc || substrOf gateQuestion rc then
      match extractPayload rc with
      | none => .ok none
      | some json_str =>
        match jsonParse json_str with
        | none => .ok none
        | some (.obj fs) =>
          match payloadAction fs with
          | .ok o => .ok o
          | .error .keyErr => .ok none
          | .error (.hard e) => .error e
        | some _ => .ok none
    else .ok none

/-- The `_enhance_response_with_structured_data` loop over all tool
results, appending each recognized rendering to the response; an
uncaught exception aborts the helper. -/
def enhance (response : String) : List ToolResult → Except String String
  | [] => .ok response
  | r :: rest =>
    match enhanceOne r with
    | .error e => .error e
    | .ok none => enhance response rest
    | .ok (some t) => enhance (response ++ t) rest

/-- Apology substituted by the responder when anything inside its `try`
block raises (a Model Client failure or an uncaught enhancement
exception). -/
def responderApology : String :=
  "I apologize, but I encountered an error while generating my response. Please try asking your question again."

/-- Final response text computed by `_responder_node`: the Model Client
synthesis call followed by the enhancement step, with the apology
substituted on any raise.  The synthesis prompt only feeds the Model
Client, whose outcome the oracle supplies, so its text is not
reconstructed here. -/
def responder_output (responderLLM : String → LLMBehavior) (s : AgentState) : String :=
  match responderLLM ((lastHuman s.messages).getD "") with
  | .raises _ => responderApology
  | .replies text =>
    match enhance text s.tool_results with
    | .ok final => final
    | .error _ => responderApology

/-- The `_responder_node`: appends the final response as an
`AIMessage`. -/
def responder_node (responderLLM : String → LLMBehavior) (s : AgentState) : AgentState :=
  { s with messages := s.messages ++ [.ai (responder_output responderLLM s)] }

/-- The compiled workflow (`planner` entry point, conditional edge to
`executor` or `responder`, edge `executor → responder`, then `END`). -/
def workflow_invoke (plannerLLM responderLLM : String → LLMBehavior)
    (registry : Registry) (s0 : AgentState) : Except String AgentState :=
  let s1 := planner_node plannerLLM s0
  if route_after_planning s1 == "execute_tools" then
    match executor_node registry s1 with
    | .ok s2 => .ok (responder_node responderLLM s2)
    | .error e => .error e
  else .ok (responder_node responderLLM s1)

/-- The session store `self.session_histories`, modelled extensionally:
a missing key and an empty history are observably identical (the lazily
inserted empty list on first use is therefore invisible). -/
def Histories := String → List Msg

/-- The session key `f"{user_id}_{session_id}"`. -/
def sessionKey (user_id session_id : String) : String :=
  user_id ++ "_" ++ session_id

/-- Fallback output when the final state contains no `AIMessage`. -/
def noResponseApology : String :=
  "I apologize, but I couldn\x27t generate a response."

/-- Error template `f"I apologize, but I encountered an error: {str(e)}"`. -/
def errorApology (e : String) : String :=
  "I apologize, but I encountered an error: " ++ e

/-- Content of an `AIMessage`, `none` for other roles (the filter of
`isinstance(msg, AIMessage)`). -/
def aiContent : Msg → Option String
  | .ai c => some c
  | .human _ => none

/-- First `AIMessage` content in a message list. -/
def firstAi : List Msg → Option String
  | [] => none
  | .ai c :: _ => some c
  | .human _ :: rest => firstAi rest

/-- The chat-history pairing of `answer_questions`: each `HumanMessage`
is paired with the next `AIMessage` after it, when one exists. -/
def chatHistory : List Msg → List (String × String)
  | [] => []
  | .human h :: rest =>
    (match firstAi rest with
     | some a => [(h, a)]
     | none => []) ++ chatHistory rest
  | .ai _ :: rest => chatHistory rest

/-- Return value of `answer_questions`.  The purely diagnostic
`debug_info` dictionary of the source (log metadata assembled from the
same fields) is not modelled. -/
structure RunResult where
  output : String
  chat_history : List (String × String)
  plan : Option JValue
  tool_results : List ToolResult

/-- Value of `Config.MAX_ITERATIONS` under its default environment
(never read by any node). -/
def maxIterationsConfig : Nat := 5

/-- Initial `AgentState` built by `answer_questions`: the stored history
of the session key followed by the new `HumanMessage`. -/
def initial_state (hs : Histories) (question user_id session_id : String) : AgentState :=
  { messages := hs (sessionKey user_id session_id) ++ [.human question]
    user_id := user_id
    session_id := session_id
    plan := none
    tool_results := []
    iteration_count := 0
    max_iterations := maxIterationsConfig
    next_action := "" }

/-- The `answer_questions` interface, generic in the compiled workflow
object (`self.workflow.invoke`, an external LangGraph call that may
raise): on success the session history is overwritten with the final
messages and the last `AIMessage` is returned; on a raise the error
apology is returned with empty history, no plan and no tool results, and
the stored histories are untouched. -/
def answer_questions (wf : AgentState → Except String AgentState)
    (hs : Histories) (question user_id session_id : String) :
    RunResult × Histories :=
  let key := sessionKey user_id session_id
  match wf (initial_state hs question user_id session_id) with
  | .ok final =>
    let hs2 : Histories := fun k => if k == key then final.messages else hs k
    let ai_contents := final.messages.filterMap aiContent
    let output := ai_contents.getLast?.getD noResponseApology
    ({ output := output
       chat_history := chatHistory final.messages
       plan := final.plan
       tool_results := final.tool_results }, hs2)
  | .error e =>
    ({ output := errorApology e
       chat_history := []
       plan := none
       tool_results := [] }, hs)

/-- The agent run with the in-module workflow: the composition actually
executed by `AutonomousLangGraphAgent.answer_questions`. -/
def agent_answer_questions (plannerLLM responderLLM : String → LLMBehavior)
    (registry : Registry) (hs : Histories)
    (question user_id session_id : String) : RunResult × Histories :=
  answer_questions (workflow_invoke plannerLLM responderLLM registry)
    hs question user_id session_id

/-! ## Helper lemmas -/

theorem toList_append (a b : String) : (a ++ b).toList = a.toList ++ b.toList :=
  String.data_append a b

theorem isPrefixOf_append_self (l t : List Char) : l.isPrefixOf (l ++ t) = true := by
  induction l with
  | nil => simp [List.isPrefixOf]
  | cons c cs ih => simp [List.isPrefixOf, ih]

theorem infixOfChars_starts (n rest : List Char) :
    infixOfChars n (n ++ rest) = true := by
  cases n with
  | nil => cases rest <;> simp [infixOfChars, List.isPrefixOf]
  | cons c cs =>
    have hp := isPrefixOf_append_self (c :: cs) rest
    simp [infixOfChars, hp]

theorem infixOfChars_append (a n b : List Char) :
    infixOfChars n (a ++ (n ++ b)) = true := by
  induction a with
  | nil => simpa using infixOfChars_starts n b
  | cons c cs ih => simp [infixOfChars, ih]

theorem substrOf_append (a n b : String) : substrOf n (a ++ (n ++ b)) = true := by
  unfold substrOf
  rw [toList_append, toList_append]
  exact infixOfChars_append a.toList n.toList b.toList

theorem lastHuman_append_human (l : List Msg) (q : String) :
    lastHuman (l ++ [.human q]) = some q := by
  induction l with
  | nil => rfl
  | cons m rest ih => cases m <;> simp [lastHuman, ih]

theorem planner_node_messages (pl : String → LLMBehavior) (s : AgentState) :
    (planner_node pl s).messages = s.messages := rfl

theorem planner_node_user_id (pl : String → LLMBehavior) (s : AgentState) :
    (planner_node pl s).user_id = s.user_id := rfl

theorem planner_node_tool_results (pl : String → LLMBehavior) (s : AgentState) :
    (planner_node pl s).tool_results = s.tool_results := rfl

theorem planner_node_plan (pl : String → LLMBehavior) (s : AgentState) :
    (planner_node pl s).plan = some (planner_decide pl s.messages).1 := rfl

theorem planner_node_next (pl : String → LLMBehavior) (s : AgentState) :
    (planner_node pl s).next_action = (planner_decide pl s.messages).2 := rfl

theorem planner_decide_none (pl : String → LLMBehavior) (msgs : List Msg)
    (h : lastHuman msgs = none) :
    planner_decide pl msgs = (noQuestionPlan, "respond_directly") := by
  simp [planner_decide, h]

theorem planner_decide_raises (pl : String → LLMBehavior) (msgs : List Msg)
    (q m : String) (hq : lastHuman msgs = some q) (hr : pl q = .raises m) :
    planner_decide pl msgs = (fallback_plan q, "execute_tools") := by
  simp [planner_decide, hq, hr]

theorem planner_decide_replies (pl : String → LLMBehavior) (msgs : List Msg)
    (q t : String) (hq : lastHuman msgs = some q) (hr : pl q = .replies t) :
    planner_decide pl msgs = (planFromReply q t,
      if planCondition (planFromReply q t) then "execute_tools" else "respond_directly") := by
  simp [planner_decide, hq, hr]

theorem planner_decide_second (pl : String → LLMBehavior) (msgs : List Msg) :
    (planner_decide pl msgs).2 = "execute_tools" ∨
    (planner_decide pl msgs).2 = "respond_directly" := by
  cases h : lastHuman msgs with
  | none => rw [planner_decide_none pl msgs h]; right; rfl
  | some q =>
    cases hr : pl q with
    | raises m => rw [planner_decide_raises pl msgs q m h hr]; left; rfl
    | replies t =>
      by_cases hc : planCondition (planFromReply q t) = true <;>
        simp [planner_decide, h, hr, hc, planFromReply]

theorem planner_decide_execute_cases (pl : String → LLMBehavior) (msgs : List Msg)
    (h : (planner_decide pl msgs).2 = "execute_tools") :
    planCondition (planner_decide pl msgs).1 = true ∨
    ∃ q m, lastHuman msgs = some q ∧ pl q = .raises m ∧
      (planner_decide pl msgs).1 = fallback_plan q := by
  cases hq : lastHuman msgs with
  | none =>
    rw [planner_decide_none pl msgs hq] at h
    exact absurd h (by decide)
  | some q =>
    cases hr : pl q with
    | raises m =>
      refine Or.inr ⟨q, m, rfl, hr, ?_⟩
      rw [planner_decide_raises pl msgs q m hq hr]
    | replies t =>
      left
      rw [planner_decide_replies pl msgs q t hq hr] at h ⊢
      by_cases hc : planCondition (planFromReply q t) = true
      · exact hc
      · simp [hc] at h

theorem fallback_plan_cases (q : String) :
    fallback_plan q = practicePlan ∨ fallback_plan q = progressPlan ∨
    fallback_plan q = englishPlan q ∨ fallback_plan q = noToolsPlan := by
  simp only [fallback_plan]
  split
  · exact Or.inl rfl
  split
  · exact Or.inr (Or.inl rfl)
  split
  · exact Or.inr (Or.inr (Or.inl rfl))
  · exact Or.inr (Or.inr (Or.inr rfl))

theorem fallback_plan_needs_false (q : String)
    (h : ((fallback_plan q).lookupD "needs_tools" (.bool false)).truthy = false) :
    fallback_plan q = noToolsPlan := by
  rcases fallback_plan_cases q with hc | hc | hc | hc
  · rw [hc] at h; exact absurd h (by decide)
  · rw [hc] at h; exact absurd h (by decide)
  · rw [hc] at h
    exact absurd h (by simp [englishPlan, JValue.lookupD, JValue.lookup?, jlookup, JValue.truthy])
  · exact hc

theorem executor_node_falsy (R : Registry) (s : AgentState)
    (h : ((s.plan.getD (.obj [])).lookupD "tools_to_use" (.arr [])).truthy = false) :
    executor_node R s = .ok { s with tool_results := [] } := by
  unfold executor_node
  simp [h]

theorem runInvocation_wf (R : Registry) (uid : String) (sp : JValue)
    (h : wfSpec sp = true) :
    runInvocation R uid sp = .ok (invokeWf R uid sp) := by
  cases sp with
  | obj fs =>
    unfold runInvocation
    cases hp : jlookupD fs "parameters" (.obj []) <;>
      simp [wfSpec, hp] at h ⊢
  | null => simp [wfSpec] at h
  | bool b => simp [wfSpec] at h
  | num n => simp [wfSpec] at h
  | str t => simp [wfSpec] at h
  | arr xs => simp [wfSpec] at h

theorem mapMExc_wf (R : Registry) (uid : String) (l : List JValue)
    (h : ∀ x ∈ l, wfSpec x = true) :
    mapMExc (runInvocation R uid) l = .ok (l.map (invokeWf R uid)) := by
  induction l with
  | nil => rfl
  | cons x xs ih =>
    rw [mapMExc, runInvocation_wf R uid x (h x (List.mem_cons_self x xs)),
      ih (fun y hy => h y (List.mem_cons_of_mem x hy))]
    simp

theorem executor_node_wf (R : Registry) (s : AgentState) (p : JValue)
    (specs : List JValue) (hp : s.plan = some p)
    (ht : p.lookup? "tools_to_use" = some (.arr specs))
    (hw : ∀ x ∈ specs, wfSpec x = true) :
    executor_node R s = .ok { s with tool_results := specs.map (invokeWf R s.user_id) } := by
  unfold executor_node
  rw [hp]
  simp only [Option.getD_some, JValue.lookupD, ht, Option.getD_some]
  cases specs with
  | nil => simp [JValue.truthy]
  | cons a l =>
    simp [JValue.truthy, List.isEmpty, mapMExc_wf R s.user_id (a :: l) hw]

theorem executor_node_ok_shape (R : Registry) (s s2 : AgentState)
    (h : executor_node R s = .ok s2) :
    ∃ rs, s2 = { s with tool_results := rs } := by
  simp only [executor_node] at h
  split at h
  · exact ⟨[], (Except.ok.inj h).symm⟩
  · split at h
    · split at h
      · exact ⟨_, (Except.ok.inj h).symm⟩
      · exact absurd h (by simp)
    · exact absurd h (by simp)

theorem invokeWf_eq (R : Registry) (uid : String) (fs : List (String × JValue))
    (name : String) (ps : List (String × JValue))
    (h1 : jlookup fs "tool_name" = some (.str name))
    (h2 : jlookupD fs "parameters" (.obj []) = .obj ps) :
    invokeWf R uid (.obj fs) =
      match execute_single_tool R (some (.str name)) (withUserId ps uid) with
      | .ok r => ⟨some (.str name), withUserId ps uid,
          jlookupD fs "reason" (.str "No reason provided"), r, true⟩
      | .error e => ⟨some (.str name), withUserId ps uid,
          jlookupD fs "reason" (.str "No reason provided"), "Error: " ++ e, false⟩ := by
  simp only [invokeWf, h1, h2]

theorem responder_node_messages (rl : String → LLMBehavior) (s : AgentState) :
    (responder_node rl s).messages = s.messages ++ [.ai (responder_output rl s)] := rfl

theorem responder_apology_of_raises (rl : String → LLMBehavior) (s : AgentState)
    (m : String) (h : rl ((lastHuman s.messages).getD "") = .raises m) :
    responder_output rl s = responderApology := by
  unfold responder_output
  rw [h]

theorem enhance_extends (rs : List ToolResult) :
    ∀ t u, enhance t rs = .ok u → ∃ v, u = t ++ v := by
  induction rs with
  | nil =>
    intro t u h
    refine ⟨"", ?_⟩
    injection h with h'
    rw [← h']
    exact (String.ext (by simp [String.data_append])).symm
  | cons r rest ih =>
    intro t u h
    rw [enhance] at h
    cases he : enhanceOne r with
    | error e => rw [he] at h; cases h
    | ok o =>
      rw [he] at h
      cases o with
      | none => exact ih t u h
      | some a =>
        obtain ⟨v, hv⟩ := ih (t ++ a) u h
        exact ⟨a ++ v, by rw [hv, String.append_assoc]⟩

theorem workflow_ok_shape (pl rl : String → LLMBehavior) (R : Registry)
    (s0 f : AgentState) (h : workflow_invoke pl rl R s0 = .ok f) :
    ∃ s1, f = responder_node rl s1 ∧ s1.messages = s0.messages := by
  simp only [workflow_invoke] at h
  split at h
  · cases he : executor_node R (planner_node pl s0) with
    | ok s2 =>
      rw [he] at h
      injection h with h'
      obtain ⟨rs, hrs⟩ := executor_node_ok_shape R (planner_node pl s0) s2 he
      exact ⟨s2, h'.symm, by rw [hrs]; rfl⟩
    | error e => rw [he] at h; cases h
  · injection h with h'
    exact ⟨planner_node pl s0, h'.symm, rfl⟩

theorem workflow_ok_messages (pl rl : String → LLMBehavior) (R : Registry)
    (s0 f : AgentState) (h : workflow_invoke pl rl R s0 = .ok f) :
    ∃ out, f.messages = s0.messages ++ [.ai out] := by
  obtain ⟨s1, hf, hm⟩ := workflow_ok_shape pl rl R s0 f h
  exact ⟨responder_output rl s1, by rw [hf, responder_node_messages, hm]⟩

theorem workflow_execute (pl rl : String → LLMBehavior) (R : Registry)
    (s0 s2 : AgentState) (hna : (planner_node pl s0).next_action = "execute_tools")
    (hex : executor_node R (planner_node pl s0) = .ok s2) :
    workflow_invoke pl rl R s0 = .ok (responder_node rl s2) := by
  simp only [workflow_invoke, route_after_planning, hna, hex]
  simp

theorem workflow_respond (pl rl : String → LLMBehavior) (R : Registry)
    (s0 : AgentState) (hna : (planner_node pl s0).next_action ≠ "execute_tools") :
    workflow_invoke pl rl R s0 = .ok (responder_node rl (planner_node pl s0)) := by
  have hb : ((planner_node pl s0).next_action == "execute_tools") = false :=
    beq_eq_false_iff_ne.mpr hna
  simp only [workflow_invoke, route_after_planning, hb, Bool.false_eq_true, if_false]

theorem executor_fallback_ok (q : String) (R : Registry) (s : AgentState)
    (h : s.plan = some (fallback_plan q)) :
    ∃ rs, executor_node R s = .ok { s with tool_results := rs } := by
  rcases fallback_plan_cases q with hc | hc | hc | hc <;> rw [hc] at h
  · exact ⟨_, executor_node_wf R s practicePlan [practiceSpec] h rfl (by decide)⟩
  · exact ⟨_, executor_node_wf R s progressPlan [progressSpec] h rfl (by decide)⟩
  · refine ⟨_, executor_node_wf R s (englishPlan q) [englishSpec q] h rfl ?_⟩
    intro x hx
    rw [List.mem_singleton.mp hx]
    rfl
  · exact ⟨[], executor_node_falsy R s (by rw [h]; rfl)⟩

theorem aiContents_concat (l : List Msg) (out : String) :
    ((l ++ [Msg.ai out]).filterMap aiContent).getLast? = some out := by
  rw [List.filterMap_append]
  exact List.getLast?_concat _

/-- Routing condition extracted from a stored plan (Python truthiness of
`plan["needs_tools"]`, with a missing plan or key falsy). -/
def planNeedsTools (s : AgentState) : Bool :=
  ((s.plan.getD (.obj [])).lookupD "needs_tools" (.bool false)).truthy

/-! ## Claim theorems -/

/-- C3: for every run whose planner-produced plan has `needs_tools`
falsy, no capability of the Capability Registry is invoked — on every
planner path, including the fallback and model-failure paths.  Zero
registry invocations are expressed extensionally: the whole run result
is identical for any two registries. -/
theorem C3_no_tools_means_zero_registry_invocations :
    ∀ (pl rl : String → LLMBehavior) (R1 R2 : Registry) (hs : Histories)
      (q uid sid : String),
      planNeedsTools (planner_node pl (initial_state hs q uid sid)) = false →
      agent_answer_questions pl rl R1 hs q uid sid
        = agent_answer_questions pl rl R2 hs q uid sid := by
  intro pl rl R1 R2 hs q uid sid h
  suffices hwf : workflow_invoke pl rl R1 (initial_state hs q uid sid)
      = workflow_invoke pl rl R2 (initial_state hs q uid sid) by
    simp only [agent_answer_questions, answer_questions, hwf]
  by_cases hna : (planner_node pl (initial_state hs q uid sid)).next_action = "execute_tools"
  · have hd := planner_decide_execute_cases pl (initial_state hs q uid sid).messages hna
    rcases hd with hc | ⟨q2, m, _, _, hplan⟩
    · exfalso
      have hneeds : planNeedsTools (planner_node pl (initial_state hs q uid sid)) = true := by
        unfold planNeedsTools
        rw [planner_node_plan]
        simp only [Option.getD_some]
        exact ((Bool.and_eq_true _ _).mp hc).1
      rw [hneeds] at h
      cases h
    · have hplan1 : (planner_node pl (initial_state hs q uid sid)).plan
          = some (fallback_plan q2) := by
        rw [planner_node_plan, hplan]
      have hneeds : ((fallback_plan q2).lookupD "needs_tools" (.bool false)).truthy = false := by
        unfold planNeedsTools at h
        rw [hplan1] at h
        simpa using h
      have hnt := fallback_plan_needs_false q2 hneeds
      have hempty : (((planner_node pl (initial_state hs q uid sid)).plan.getD
          (.obj [])).lookupD "tools_to_use" (.arr [])).truthy = false := by
        rw [hplan1, hnt]
        rfl
      rw [workflow_execute pl rl R1 _ _ hna (executor_node_falsy R1 _ hempty),
        workflow_execute pl rl R2 _ _ hna (executor_node_falsy R2 _ hempty)]
  · rw [workflow_respond pl rl R1 _ hna, workflow_respond pl rl R2 _ hna]

/-- Witness for C3 at a concrete run: the planner raises, the request
matches no fallback keyword, and the two registries differ everywhere;
the run results coincide. -/
theorem C3_no_tools_means_zero_registry_invocations_witness :
    agent_answer_questions (fun _ => .raises "down") (fun _ => .raises "down")
        (fun _ => none) (fun _ => []) "translate this to French" "u1" "s1"
      = agent_answer_questions (fun _ => .raises "down") (fun _ => .raises "down")
        (fun n => some (fun _ => .ok ("ran " ++ n))) (fun _ => [])
        "translate this to French" "u1" "s1" :=
  C3_no_tools_means_zero_registry_invocations _ _ _ _ _ _ _ _ (by rfl)

/-- C4: when every Model Client call raises, the run still returns the
fixed (non-empty) responder apology as its output, for every request,
registry and stored history: the planner falls back to heuristics and
the responder substitutes the apology instead of propagating. -/
theorem C4_output_nonempty_when_model_always_fails :
    ∀ (m1 m2 : String) (R : Registry) (hs : Histories) (q uid sid : String),
      (agent_answer_questions (fun _ => .raises m1) (fun _ => .raises m2)
          R hs q uid sid).1.output = responderApology ∧
      responderApology ≠ "" := by
  intro m1 m2 R hs q uid sid
  refine ⟨?_, by decide⟩
  have hlh : lastHuman (initial_state hs q uid sid).messages = some q :=
    lastHuman_append_human _ q
  have hpd := planner_decide_raises (fun _ => .raises m1)
    (initial_state hs q uid sid).messages q m1 hlh rfl
  have hplan : (planner_node (fun _ => .raises m1) (initial_state hs q uid sid)).plan
      = some (fallback_plan q) := by
    rw [planner_node_plan, hpd]
  have hna : (planner_node (fun _ => .raises m1) (initial_state hs q uid sid)).next_action
      = "execute_tools" := by
    rw [planner_node_next, hpd]
  obtain ⟨rs, hex⟩ := executor_fallback_ok q R _ hplan
  have hwf := workflow_execute (fun _ => .raises m1) (fun _ => .raises m2) R
    (initial_state hs q uid sid) _ hna hex
  have hout : responder_output (fun _ => .raises m2)
      { planner_node (fun _ => .raises m1) (initial_state hs q uid sid)
        with tool_results := rs } = responderApology :=
    responder_apology_of_raises _ _ m2 rfl
  simp only [agent_answer_questions, answer_questions, hwf]
  rw [responder_node_messages, hout, aiContents_concat]
  rfl

/-- C1 counterexample: with the Model Client raising and the request
`"translate this to French"` (which matches no fallback keyword), the
planner stores a plan whose `needs_tools` is `False` with an empty
invocation list, yet the value consumed by the Router is
`"execute_tools"`, not `"respond_directly"` — so the claimed
biconditional fails on the model-raise path. -/
theorem C1_counterexample :
    route_after_planning (planner_node (fun _ => LLMBehavior.raises "connection error")
        (initial_state (fun _ => []) "translate this to French" "u1" "s1"))
      = "execute_tools" ∧
    ((planner_node (fun _ => LLMBehavior.raises "connection error")
        (initial_state (fun _ => []) "translate this to French" "u1" "s1")).plan.getD
      (.obj [])).lookupD "needs_tools" (.bool false) = JValue.bool false ∧
    ((planner_node (fun _ => LLMBehavior.raises "connection error")
        (initial_state (fun _ => []) "translate this to French" "u1" "s1")).plan.getD
      (.obj [])).lookupD "tools_to_use" (.arr [.null]) = JValue.arr [] := by
  refine ⟨rfl, rfl, rfl⟩

/-- C1 amended: on every planner path where the Model Client call
returns (parsed plan or parse-failure fallback), the next stage is
`execute_tools` iff the stored plan has a truthy `needs_tools` and a
truthy `tools_to_use` — for a well-typed plan, iff `needs_tools` is
`true` and the invocation list is non-empty; on the path where the Model
Client call raises, the next stage is unconditionally `execute_tools`,
regardless of the fallback plan stored. -/
theorem C1_amended_route_iff :
    (∀ (pl : String → LLMBehavior) (msgs : List Msg),
      (∀ q, lastHuman msgs = some q → ∃ t, pl q = .replies t) →
      ((planner_decide pl msgs).2 = "execute_tools" ↔
        planCondition (planner_decide pl msgs).1 = true)) ∧
    (∀ (pl : String → LLMBehavior) (msgs : List Msg) (q m : String),
      lastHuman msgs = some q → pl q = .raises m →
      (planner_decide pl msgs).2 = "execute_tools" ∧
      (planner_decide pl msgs).1 = fallback_plan q) ∧
    (∀ (plan : JValue) (b : Bool) (xs : List JValue),
      plan.lookup? "needs_tools" = some (.bool b) →
      plan.lookup? "tools_to_use" = some (.arr xs) →
      (planCondition plan = true ↔ b = true ∧ xs ≠ [])) := by
  refine ⟨?_, ?_, ?_⟩
  · intro pl msgs hrep
    cases hq : lastHuman msgs with
    | none =>
      rw [planner_decide_none pl msgs hq]
      simp [planCondition, noQuestionPlan, JValue.lookupD, JValue.lookup?, jlookup, JValue.truthy]
    | some q =>
      obtain ⟨t, ht⟩ := hrep q hq
      rw [planner_decide_replies pl msgs q t hq ht]
      by_cases hc : planCondition (planFromReply q t) = true
      · simp [hc]
      · simp [hc]
  · intro pl msgs q m hq hm
    rw [planner_decide_raises pl msgs q m hq hm]
    exact ⟨rfl, rfl⟩
  · intro plan b xs h1 h2
    unfold planCondition
    rw [JValue.lookupD, h1, h2]
    simp [JValue.truthy, truthyOpt, List.isEmpty_iff]

/-- Witness for C1 amended: a returned non-JSON reply on a
practice request routes to `execute_tools` with the fallback practice
plan satisfying the condition, and a raising call on the same request
also routes to `execute_tools`. -/
theorem C1_amended_route_iff_witness :
    ((planner_decide (fun _ => LLMBehavior.replies "no json here")
        [Msg.human "practice time"]).2 = "execute_tools" ↔
      planCondition (planner_decide (fun _ => LLMBehavior.replies "no json here")
        [Msg.human "practice time"]).1 = true) ∧
    (planner_decide (fun _ => LLMBehavior.raises "boom")
        [Msg.human "practice time"]).2 = "execute_tools" ∧
    (planCondition practicePlan = true ↔ true = true ∧ [practiceSpec] ≠ []) :=
  ⟨C1_amended_route_iff.1 _ _ (fun _ _ => ⟨"no json here", rfl⟩),
   (C1_amended_route_iff.2.1 (fun _ => LLMBehavior.raises "boom")
     [Msg.human "practice time"] "practice time" "boom" rfl rfl).1,
   C1_amended_route_iff.2.2 practicePlan true [practiceSpec] rfl rfl⟩

/-- C5: the fallback plan tests the lower-cased request against four
fixed keyword sets in priority order; a request containing `practice`
always selects the practice invocation with topic `Grammar` and
difficulty `medium` (even if later sets also match), a request matching
no earlier set but containing `progress` selects the progress
invocation, a request matching neither of the first two sets but
containing `grammar` selects the English-search invocation, a request
matching no set yields `needs_tools = false` with no invocations, and
the literal request `"translate this to French"` is such a request. -/
theorem C5_fallback_keyword_routing :
    (∀ q, substrOf "practice" (strLower q) = true → fallback_plan q = practicePlan) ∧
    practicePlan.lookup? "tools_to_use"
      = some (.arr [.obj [("tool_name", .str "get_practice_question"),
          ("parameters", .obj [("user_id", .str "fallback"), ("topic", .str "Grammar"),
            ("difficulty", .str "medium")]),
          ("reason", .str "User wants practice questions")]]) ∧
    (∀ q, (["practice", "question", "start"].any
        (fun w => substrOf w (strLower q))) = false →
      substrOf "progress" (strLower q) = true → fallback_plan q = progressPlan) ∧
    progressPlan.lookup? "tools_to_use"
      = some (.arr [.obj [("tool_name", .str "get_learning_progress"),
          ("parameters", .obj [("user_id", .str "fallback")]),
          ("reason", .str "User wants to see progress")]]) ∧
    (∀ q, (["practice", "question", "start"].any
        (fun w => substrOf w (strLower q))) = false →
      (["progress", "performance"].any (fun w => substrOf w (strLower q))) = false →
      substrOf "grammar" (strLower q) = true → fallback_plan q = englishPlan q) ∧
    (∀ q, (["practice", "question", "start"].any
        (fun w => substrOf w (strLower q))) = false →
      (["progress", "performance"].any (fun w => substrOf w (strLower q))) = false →
      (["grammar", "english", "vocabulary"].any
        (fun w => substrOf w (strLower q))) = false →
      fallback_plan q = noToolsPlan) ∧
    fallback_plan "translate this to French" = noToolsPlan ∧
    noToolsPlan.lookupD "needs_tools" (.bool false) = JValue.bool false ∧
    noToolsPlan.lookup? "tools_to_use" = some (.arr []) := by
  refine ⟨?_, rfl, ?_, rfl, ?_, ?_, by rfl, rfl, rfl⟩
  · intro q h
    simp [fallback_plan, h]
  · intro q h1 h2
    simp only [fallback_plan]
    rw [if_neg (by simp [h1]), if_pos (by simp [h2])]
  · intro q h1 h2 h3
    simp only [fallback_plan]
    rw [if_neg (by simp [h1]), if_neg (by simp [h2]), if_pos (by simp [h3])]
  · intro q h1 h2 h3
    simp only [fallback_plan]
    rw [if_neg (by simp [h1]), if_neg (by simp [h2]), if_neg (by simp [h3])]

/-- Witness for C5 at the literal requests of the specification:
`"I want to practice a question"` selects the practice invocation and
`"show me my progress"` selects the progress invocation. -/
theorem C5_fallback_keyword_routing_witness :
    fallback_plan "I want to practice a question" = practicePlan ∧
    fallback_plan "show me my progress" = progressPlan :=
  ⟨C5_fallback_keyword_routing.1 "I want to practice a question" (by rfl),
   C5_fallback_keyword_routing.2.2.1 "show me my progress" (by rfl) (by rfl)⟩

/-- C9 counterexample: on the fallback path for the request
`"teach me english grammar"` (English-learning keyword set), the
selected invocation has no `user_id` parameter, so the executor injects
the requesting user id `"alice"`, and the capability is invoked with
`user_id = "alice"`, not the literal `"fallback"`.  The probe registry
returns the `user_id` value it was invoked with. -/
theorem C9_counterexample :
    (match executor_node
        (fun _ => some (fun ps => .ok (pyStr (jlookupD ps "user_id" .null))))
        (planner_node (fun _ => LLMBehavior.raises "down")
          (initial_state (fun _ => []) "teach me english grammar" "alice" "s1")) with
     | .ok s => s.tool_results.map (fun r => (r.result, jlookup r.parameters "user_id"))
     | .error e => [(e, none)]) = [("alice", some (.str "alice"))] ∧
    "alice" ≠ "fallback" := ⟨rfl, by decide⟩

/-- C9 amended: the practice and progress fallback invocations already
carry `user_id = "fallback"`, the executor leaves it in place (it only
injects the requesting id when the key is absent), and the capability is
invoked with exactly those parameters; the English-search fallback
invocation carries no `user_id`, so the executor injects the requesting
user id and the capability is invoked with the real user id. -/
theorem C9_amended_fallback_user_id :
    (∀ (R : Registry) (s : AgentState), s.plan = some practicePlan →
      executor_node R s
        = .ok { s with tool_results := [invokeWf R s.user_id practiceSpec] } ∧
      invokeWf R s.user_id practiceSpec
        = (match execute_single_tool R (some (.str "get_practice_question")) practiceParams with
           | .ok r => ⟨some (.str "get_practice_question"), practiceParams,
               .str "User wants practice questions", r, true⟩
           | .error e => ⟨some (.str "get_practice_question"), practiceParams,
               .str "User wants practice questions", "Error: " ++ e, false⟩) ∧
      jlookup practiceParams "user_id" = some (.str "fallback")) ∧
    (∀ (R : Registry) (s : AgentState), s.plan = some progressPlan →
      executor_node R s
        = .ok { s with tool_results := [invokeWf R s.user_id progressSpec] } ∧
      invokeWf R s.user_id progressSpec
        = (match execute_single_tool R (some (.str "get_learning_progress")) progressParams with
           | .ok r => ⟨some (.str "get_learning_progress"), progressParams,
               .str "User wants to see progress", r, true⟩
           | .error e => ⟨some (.str "get_learning_progress"), progressParams,
               .str "User wants to see progress", "Error: " ++ e, false⟩) ∧
      jlookup progressParams "user_id" = some (.str "fallback")) ∧
    (∀ (q : String) (R : Registry) (s : AgentState), s.plan = some (englishPlan q) →
      executor_node R s
        = .ok { s with tool_results := [invokeWf R s.user_id (englishSpec q)] } ∧
      invokeWf R s.user_id (englishSpec q)
        = (match execute_single_tool R (some (.str "english_search_document"))
              (englishParams q ++ [("user_id", .str s.user_id)]) with
           | .ok r => ⟨some (.str "english_search_document"),
               englishParams q ++ [("user_id", .str s.user_id)],
               .str "User needs English learning content", r, true⟩
           | .error e => ⟨some (.str "english_search_document"),
               englishParams q ++ [("user_id", .str s.user_id)],
               .str "User needs English learning content", "Error: " ++ e, false⟩) ∧
      jlookup (englishParams q ++ [("user_id", .str s.user_id)]) "user_id"
        = some (.str s.user_id)) := by
  refine ⟨?_, ?_, ?_⟩
  · intro R s h
    exact ⟨executor_node_wf R s practicePlan [practiceSpec] h rfl (by decide), rfl, rfl⟩
  · intro R s h
    exact ⟨executor_node_wf R s progressPlan [progressSpec] h rfl (by decide), rfl, rfl⟩
  · intro q R s h
    refine ⟨executor_node_wf R s (englishPlan q) [englishSpec q] h rfl ?_, rfl, ?_⟩
    · intro x hx
      rw [List.mem_singleton.mp hx]
      rfl
    · rfl

/-- Witness for C9 amended at a concrete state with the practice
fallback plan stored. -/
theorem C9_amended_fallback_user_id_witness :
    executor_node (fun _ => some (fun ps => .ok (pyStr (jlookupD ps "user_id" .null))))
        { messages := [], user_id := "alice", session_id := "s1",
          plan := some practicePlan, tool_results := [], iteration_count := 0,
          max_iterations := 5, next_action := "execute_tools" }
      = .ok { messages := [], user_id := "alice", session_id := "s1",
              plan := some practicePlan,
              tool_results := [(invokeWf
                (fun _ => some (fun ps => .ok (pyStr (jlookupD ps "user_id" .null))))
                "alice" practiceSpec)],
              iteration_count := 0, max_iterations := 5,
              next_action := "execute_tools" } ∧
    jlookup practiceParams "user_id" = some (.str "fallback") :=
  ⟨(C9_amended_fallback_user_id.1
      (fun _ => some (fun ps => .ok (pyStr (jlookupD ps "user_id" .null))))
      { messages := [], user_id := "alice", session_id := "s1",
        plan := some practicePlan, tool_results := [], iteration_count := 0,
        max_iterations := 5, next_action := "execute_tools" } rfl).1,
   (C9_amended_fallback_user_id.1
      (fun _ => some (fun ps => .ok (pyStr (jlookupD ps "user_id" .null))))
      { messages := [], user_id := "alice", session_id := "s1",
        plan := some practicePlan, tool_results := [], iteration_count := 0,
        max_iterations := 5, next_action := "execute_tools" } rfl).2.2⟩

/-- C2 counterexample: a planned invocation whose capability raises with
message `"boom"` produces a failed entry whose result text is
`"Error: boom"`, not the bare exception message `"boom"` — the source
prefixes `"Error: "`, so the clause "with the exception message as its
result text" fails as stated. -/
theorem C2_counterexample :
    (match executor_node
        (fun n => if n == "tool_one" then some (fun _ => .error "boom") else none)
        { messages := [], user_id := "u1", session_id := "s1",
          plan := some (.obj [("needs_tools", .bool true),
            ("tools_to_use", .arr [.obj [("tool_name", .str "tool_one"),
              ("parameters", .obj [("user_id", .str "u1")])]])]),
          tool_results := [], iteration_count := 0, max_iterations := 5,
          next_action := "execute_tools" } with
     | .ok s => s.tool_results.map (fun r => (r.result, r.success))
     | .error e => [(e, true)]) = [("Error: boom", false)] ∧
    "Error: boom" ≠ "boom" := ⟨rfl, by decide⟩

/-- C2 amended: for every plan with truthy `needs_tools` and a non-empty
list of well-formed invocations, the executor completes without raising
and returns one entry per invocation in invocation order; an invocation
whose capability raises yields the entry at its position with
`success = false` and `"Error: "` followed by the exception message as
its result text, and the loop never terminates early. -/
theorem C2_amended_executor_results :
    ∀ (R : Registry) (s : AgentState) (p : JValue) (specs : List JValue),
      s.plan = some p →
      (p.lookupD "needs_tools" (.bool false)).truthy = true →
      p.lookup? "tools_to_use" = some (.arr specs) →
      specs ≠ [] →
      (∀ x ∈ specs, wfSpec x = true) →
      executor_node R s = .ok { s with tool_results := specs.map (invokeWf R s.user_id) } ∧
      (specs.map (invokeWf R s.user_id)).length = specs.length ∧
      (∀ i, (specs.map (invokeWf R s.user_id)).get? i
        = (specs.get? i).map (invokeWf R s.user_id)) ∧
      (∀ (fs : List (String × JValue)) (name : String)
          (f : List (String × JValue) → Except String String)
          (ps : List (String × JValue)) (msg : String),
        jlookup fs "tool_name" = some (.str name) →
        jlookupD fs "parameters" (.obj []) = .obj ps →
        R name = some f →
        f (withUserId ps s.user_id) = .error msg →
        invokeWf R s.user_id (.obj fs)
          = ⟨some (.str name), withUserId ps s.user_id,
             jlookupD fs "reason" (.str "No reason provided"),
             "Error: " ++ msg, false⟩) := by
  intro R s p specs hp hneeds ht hne hw
  refine ⟨executor_node_wf R s p specs hp ht hw, List.length_map _ _, ?_, ?_⟩
  · intro i
    exact List.get?_map _ _ _
  · intro fs name f ps msg h1 h2 hR hf
    rw [invokeWf_eq R s.user_id fs name ps h1 h2]
    simp [execute_single_tool, hR, hf]

/-- Witness for C2 amended at the test scenario of the specification:
three invocations, the second of which raises; three results come back
in order, the middle one failed, the outer two succeeded. -/
theorem C2_amended_executor_results_witness :
    executor_node
        (fun n => if n == "t2" then some (fun _ => .error "midfail")
                  else some (fun _ => .ok ("ran " ++ n)))
        { messages := [], user_id := "u1", session_id := "s1",
          plan := some (.obj [("needs_tools", .bool true),
            ("tools_to_use", .arr [
              .obj [("tool_name", .str "t1")],
              .obj [("tool_name", .str "t2")],
              .obj [("tool_name", .str "t3")]])]),
          tool_results := [], iteration_count := 0, max_iterations := 5,
          next_action := "execute_tools" }
      = .ok { messages := [], user_id := "u1", session_id := "s1",
              plan := some (.obj [("needs_tools", .bool true),
                ("tools_to_use", .arr [
                  .obj [("tool_name", .str "t1")],
                  .obj [("tool_name", .str "t2")],
                  .obj [("tool_name", .str "t3")]])]),
              tool_results := [
                .obj [("tool_name", .str "t1")],
                .obj [("tool_name", .str "t2")],
                .obj [("tool_name", .str "t3")]].map
                  (invokeWf (fun n => if n == "t2" then some (fun _ => .error "midfail")
                    else some (fun _ => .ok ("ran " ++ n))) "u1"),
              iteration_count := 0, max_iterations := 5,
              next_action := "execute_tools" } ∧
    ([.obj [("tool_name", .str "t1")],
      .obj [("tool_name", .str "t2")],
      .obj [("tool_name", .str "t3")]].map
        (invokeWf (fun n => if n == "t2" then some (fun _ => .error "midfail")
          else some (fun _ => .ok ("ran " ++ n))) "u1")).map
        (fun r => (r.result, r.success))
      = [("ran t1", true), ("Error: midfail", false), ("ran t3", true)] := by
  refine ⟨(C2_amended_executor_results
    (fun n => if n == "t2" then some (fun _ => .error "midfail")
      else some (fun _ => .ok ("ran " ++ n)))
    { messages := [], user_id := "u1", session_id := "s1",
      plan := some (.obj [("needs_tools", .bool true),
        ("tools_to_use", .arr [
          .obj [("tool_name", .str "t1")],
          .obj [("tool_name", .str "t2")],
          .obj [("tool_name", .str "t3")]])]),
      tool_results := [], iteration_count := 0, max_iterations := 5,
      next_action := "execute_tools" }
    (.obj [("needs_tools", .bool true),
      ("tools_to_use", .arr [
        .obj [("tool_name", .str "t1")],
        .obj [("tool_name", .str "t2")],
        .obj [("tool_name", .str "t3")]])])
    [.obj [("tool_name", .str "t1")],
     .obj [("tool_name", .str "t2")],
     .obj [("tool_name", .str "t3")]]
    rfl rfl rfl (List.cons_ne_nil _ _) (by decide)).1, rfl⟩

/-- C7: session state round-trips.  When the workflow completes, the
stored history of the thread becomes the previous history plus exactly
one new user turn and one new assistant turn, in order; a second run on
the same thread therefore starts from a loaded history containing the
first run's user and assistant turns in order.  When the workflow fails,
the stored histories are unchanged, so the turn history never shrinks. -/
theorem C7_session_roundtrip :
    ∀ (pl rl : String → LLMBehavior) (R : Registry) (hs : Histories)
      (q1 uid sid : String),
      (∀ f, workflow_invoke pl rl R (initial_state hs q1 uid sid) = .ok f →
        ∃ r1, (agent_answer_questions pl rl R hs q1 uid sid).2 (sessionKey uid sid)
            = hs (sessionKey uid sid) ++ [.human q1, .ai r1] ∧
          ∀ q2, (initial_state (agent_answer_questions pl rl R hs q1 uid sid).2
              q2 uid sid).messages
            = hs (sessionKey uid sid) ++ [.human q1, .ai r1, .human q2]) ∧
      (∀ e, workflow_invoke pl rl R (initial_state hs q1 uid sid) = .error e →
        (agent_answer_questions pl rl R hs q1 uid sid).2 = hs) := by
  intro pl rl R hs q1 uid sid
  constructor
  · intro f h
    obtain ⟨out, hm⟩ := workflow_ok_messages pl rl R _ f h
    have hval : (agent_answer_questions pl rl R hs q1 uid sid).2 (sessionKey uid sid)
        = hs (sessionKey uid sid) ++ [.human q1, .ai out] := by
      simp only [agent_answer_questions, answer_questions, h]
      simp only [beq_self_eq_true, if_true]
      rw [hm]
      show (hs (sessionKey uid sid) ++ [Msg.human q1]) ++ [Msg.ai out] = _
      rw [List.append_assoc]
      rfl
    refine ⟨out, hval, ?_⟩
    intro q2
    show (agent_answer_questions pl rl R hs q1 uid sid).2 (sessionKey uid sid)
        ++ [Msg.human q2] = _
    rw [hval, List.append_assoc]
    rfl
  · intro e h
    simp only [agent_answer_questions, answer_questions, h]

/-- Witness for C7 at a concrete successful run (the planner and
responder both raise, so the run completes with the apology as the
assistant turn). -/
theorem C7_session_roundtrip_witness :
    ∃ r1, (agent_answer_questions (fun _ => LLMBehavior.raises "down")
        (fun _ => LLMBehavior.raises "down") (fun _ => none)
        (fun _ => []) "hello" "u1" "s1").2 (sessionKey "u1" "s1")
      = [] ++ [.human "hello", .ai r1] ∧
    ∀ q2, (initial_state (agent_answer_questions (fun _ => LLMBehavior.raises "down")
        (fun _ => LLMBehavior.raises "down") (fun _ => none)
        (fun _ => []) "hello" "u1" "s1").2 q2 "u1" "s1").messages
      = [] ++ [.human "hello", .ai r1, .human q2] :=
  (C7_session_roundtrip (fun _ => LLMBehavior.raises "down")
    (fun _ => LLMBehavior.raises "down") (fun _ => none)
    (fun _ => []) "hello" "u1" "s1").1 _ rfl

/-- C10: `answer_questions` is a total function of the workflow outcome
(it never raises to its caller); when the compiled workflow object
raises with message `e`, the run returns the error apology containing
`e`, an empty chat history, no plan and no tool results, and the stored
history of the thread is exactly what it was before the run. -/
theorem C10_workflow_error_isolated :
    ∀ (wf : AgentState → Except String AgentState) (hs : Histories)
      (q uid sid e : String),
      wf (initial_state hs q uid sid) = .error e →
      answer_questions wf hs q uid sid
        = ({ output := errorApology e, chat_history := [], plan := none,
             tool_results := [] }, hs) ∧
      substrOf e (errorApology e) = true ∧
      (answer_questions wf hs q uid sid).2 (sessionKey uid sid)
        = hs (sessionKey uid sid) := by
  intro wf hs q uid sid e h
  refine ⟨?_, ?_, ?_⟩
  · simp only [answer_questions, h]
  · have h2 := substrOf_append "I apologize, but I encountered an error: " e ""
    rw [String.append_empty] at h2
    exact h2
  · simp only [answer_questions, h]

/-- Witness for C10 at a concrete raising workflow object. -/
theorem C10_workflow_error_isolated_witness :
    answer_questions (fun _ => .error "boom") (fun _ => []) "hi" "u1" "s1"
      = ({ output := errorApology "boom", chat_history := [], plan := none,
           tool_results := [] }, fun _ => []) ∧
    substrOf "boom" (errorApology "boom") = true :=
  ⟨(C10_workflow_error_isolated (fun _ => .error "boom") (fun _ => [])
      "hi" "u1" "s1" "boom" rfl).1,
   (C10_workflow_error_isolated (fun _ => .error "boom") (fun _ => [])
      "hi" "u1" "s1" "boom" rfl).2.1⟩

/-- Outcome of a Model Client call that is not an empty completion:
either the call raises, or it returns non-empty text. -/
def repliesNonempty : LLMBehavior → Bool
  | .raises _ => true
  | .replies t => !(t == "")

theorem append_ne_empty_left (t v : String) (h : t ≠ "") : t ++ v ≠ "" := by
  intro hc
  apply h
  have hd : (t ++ v).data = [] := by rw [hc]
  rw [String.data_append] at hd
  exact String.ext (List.append_eq_nil.mp hd).1

theorem responder_output_nonempty (rl : String → LLMBehavior) (s : AgentState)
    (h : repliesNonempty (rl ((lastHuman s.messages).getD "")) = true) :
    responder_output rl s ≠ "" := by
  cases hb : rl ((lastHuman s.messages).getD "") with
  | raises m =>
    have ho : responder_output rl s = responderApology := by
      unfold responder_output
      rw [hb]
    rw [ho]
    decide
  | replies t =>
    have h1 : t ≠ "" := by
      rw [hb] at h
      simpa only [repliesNonempty, Bool.not_eq_true', beq_eq_false_iff_ne] using h
    cases he : enhance t s.tool_results with
    | error e =>
      have ho : responder_output rl s = responderApology := by
        unfold responder_output
        rw [hb]
        show (match enhance t s.tool_results with
          | .ok final => final
          | .error _ => responderApology) = responderApology
        rw [he]
      rw [ho]
      decide
    | ok u =>
      have ho : responder_output rl s = u := by
        unfold responder_output
        rw [hb]
        show (match enhance t s.tool_results with
          | .ok final => final
          | .error _ => responderApology) = u
        rw [he]
      obtain ⟨v, hv⟩ := enhance_extends s.tool_results t u he
      rw [ho, hv]
      exact append_ne_empty_left t v h1

/-- C6: when a plan names a tool absent from the registry, the executor
completes without raising, produces for that invocation exactly one
entry at its position with `succeeded = false` whose result text
contains the tool name, continues with the remaining invocations (one
entry per invocation), and the responder still appends a non-empty
answer. -/
theorem C6_unknown_tool_recoverable :
    ∀ (R : Registry) (rl : String → LLMBehavior) (s : AgentState) (p : JValue)
      (pre post : List JValue) (fs : List (String × JValue)) (name : String)
      (ps : List (String × JValue)),
      s.plan = some p →
      p.lookup? "tools_to_use" = some (.arr (pre ++ .obj fs :: post)) →
      (∀ sp ∈ pre, wfSpec sp = true) →
      (∀ sp ∈ post, wfSpec sp = true) →
      jlookup fs "tool_name" = some (.str name) →
      jlookupD fs "parameters" (.obj []) = .obj ps →
      R name = none →
      repliesNonempty (rl ((lastHuman s.messages).getD "")) = true →
      ∃ rs, executor_node R s = .ok { s with tool_results := rs } ∧
        rs.length = pre.length + 1 + post.length ∧
        rs.get? pre.length = some ⟨some (.str name), withUserId ps s.user_id,
          jlookupD fs "reason" (.str "No reason provided"),
          "Error: " ++ ("Tool " ++ name ++ " not found"), false⟩ ∧
        substrOf name ("Error: " ++ ("Tool " ++ name ++ " not found")) = true ∧
        responder_node rl { s with tool_results := rs }
          = { s with
                tool_results := rs
                messages := s.messages
                  ++ [.ai (responder_output rl { s with tool_results := rs })] } ∧
        responder_output rl { s with tool_results := rs } ≠ "" := by
  intro R rl s p pre post fs name ps hp ht hwpre hwpost h1 h2 hR hrl
  have hwfall : ∀ x ∈ pre ++ .obj fs :: post, wfSpec x = true := by
    intro x hx
    rcases List.mem_append.mp hx with hx | hx
    · exact hwpre x hx
    · rcases List.mem_cons.mp hx with hx | hx
      · rw [hx]
        simp [wfSpec, h2]
      · exact hwpost x hx
  have hinv : invokeWf R s.user_id (.obj fs)
      = ⟨some (.str name), withUserId ps s.user_id,
         jlookupD fs "reason" (.str "No reason provided"),
         "Error: " ++ ("Tool " ++ name ++ " not found"), false⟩ := by
    rw [invokeWf_eq R s.user_id fs name ps h1 h2]
    simp [execute_single_tool, hR]
  refine ⟨(pre ++ .obj fs :: post).map (invokeWf R s.user_id),
    executor_node_wf R s p _ hp ht hwfall, ?_, ?_, ?_, rfl,
    responder_output_nonempty rl _ hrl⟩
  · simp
    omega
  · rw [List.map_append, List.map_cons]
    rw [List.get?_append_right (by simp)]
    simp [hinv]
  · have hsub := substrOf_append ("Error: " ++ "Tool ") name " not found"
    simp only [String.append_assoc] at hsub ⊢
    exact hsub

/-- Witness for C6: a registry that knows only `known_tool`, and a plan
naming `known_tool` then `ghost_tool`; both hypotheses and the
conclusion are evaluated at the concrete input. -/
theorem C6_unknown_tool_recoverable_witness :
    ∃ rs, executor_node (fun n => if n == "known_tool"
          then some (fun _ => .ok "fine") else none)
        { messages := [.human "run the tools"], user_id := "u1", session_id := "s1",
          plan := some (.obj [("needs_tools", .bool true),
            ("tools_to_use", .arr [.obj [("tool_name", .str "known_tool")],
              .obj [("tool_name", .str "ghost_tool")]])]),
          tool_results := [], iteration_count := 0, max_iterations := 5,
          next_action := "execute_tools" }
      = .ok { messages := [.human "run the tools"], user_id := "u1",
              session_id := "s1",
              plan := some (.obj [("needs_tools", .bool true),
                ("tools_to_use", .arr [.obj [("tool_name", .str "known_tool")],
                  .obj [("tool_name", .str "ghost_tool")]])]),
              tool_results := rs, iteration_count := 0, max_iterations := 5,
              next_action := "execute_tools" } ∧
      rs.length = 1 + 1 + 0 ∧
      rs.get? 1 = some ⟨some (.str "ghost_tool"),
        withUserId [] "u1", jlookupD [("tool_name", .str "ghost_tool")] "reason"
          (.str "No reason provided"),
        "Error: " ++ ("Tool " ++ "ghost_tool" ++ " not found"), false⟩ ∧
      substrOf "ghost_tool"
        ("Error: " ++ ("Tool " ++ "ghost_tool" ++ " not found")) = true ∧
      responder_node (fun _ => LLMBehavior.replies "Here is what I found.")
          { messages := [.human "run the tools"], user_id := "u1",
            session_id := "s1",
            plan := some (.obj [("needs_tools", .bool true),
              ("tools_to_use", .arr [.obj [("tool_name", .str "known_tool")],
                .obj [("tool_name", .str "ghost_tool")]])]),
            tool_results := rs, iteration_count := 0, max_iterations := 5,
            next_action := "execute_tools" }
        = { messages := [.human "run the tools"]
              ++ [.ai (responder_output (fun _ => LLMBehavior.replies "Here is what I found.")
                  { messages := [.human "run the tools"], user_id := "u1",
                    session_id := "s1",
                    plan := some (.obj [("needs_tools", .bool true),
                      ("tools_to_use", .arr [.obj [("tool_name", .str "known_tool")],
                        .obj [("tool_name", .str "ghost_tool")]])]),
                    tool_results := rs, iteration_count := 0, max_iterations := 5,
                    next_action := "execute_tools" })],
            user_id := "u1", session_id := "s1",
            plan := some (.obj [("needs_tools", .bool true),
              ("tools_to_use", .arr [.obj [("tool_name", .str "known_tool")],
                .obj [("tool_name", .str "ghost_tool")]])]),
            tool_results := rs, iteration_count := 0, max_iterations := 5,
            next_action := "execute_tools" } ∧
      responder_output (fun _ => LLMBehavior.replies "Here is what I found.")
          { messages := [.human "run the tools"], user_id := "u1",
            session_id := "s1",
            plan := some (.obj [("needs_tools", .bool true),
              ("tools_to_use", .arr [.obj [("tool_name", .str "known_tool")],
                .obj [("tool_name", .str "ghost_tool")]])]),
            tool_results := rs, iteration_count := 0, max_iterations := 5,
            next_action := "execute_tools" } ≠ "" :=
  C6_unknown_tool_recoverable
    (fun n => if n == "known_tool" then some (fun _ => .ok "fine") else none)
    (fun _ => LLMBehavior.replies "Here is what I found.")
    { messages := [.human "run the tools"], user_id := "u1", session_id := "s1",
      plan := some (.obj [("needs_tools", .bool true),
        ("tools_to_use", .arr [.obj [("tool_name", .str "known_tool")],
          .obj [("tool_name", .str "ghost_tool")]])]),
      tool_results := [], iteration_count := 0, max_iterations := 5,
      next_action := "execute_tools" }
    (.obj [("needs_tools", .bool true),
      ("tools_to_use", .arr [.obj [("tool_name", .str "known_tool")],
        .obj [("tool_name", .str "ghost_tool")]])])
    [.obj [("tool_name", .str "known_tool")]] []
    [("tool_name", .str "ghost_tool")] "ghost_tool" []
    rfl rfl (by decide) (by decide) rfl rfl rfl rfl

/-- C8 counterexample: a successful tool result whose entire text is a
parsable payload containing a question object gets nothing appended,
because the payload has no truthy `success` field (the template is
non-empty, so the mandated append would have changed the response); and
a parsable payload containing an analytics object with a topics list and
a truthy `success` field also gets nothing appended, because the text
does not contain either literal gate substring. -/
theorem C8_counterexample :
    enhance "Here you go." [⟨some (.str "get_practice_question"), [], .str "r",
      "\x7b\"question\": \x7b\"topic\": \"Grammar\"\x7d\x7d", true⟩]
      = .ok "Here you go." ∧
    jsonParse "\x7b\"question\": \x7b\"topic\": \"Grammar\"\x7d\x7d"
      = some (.obj [("question", .obj [("topic", .str "Grammar")])]) ∧
    extractPayload "\x7b\"question\": \x7b\"topic\": \"Grammar\"\x7d\x7d"
      = some "\x7b\"question\": \x7b\"topic\": \"Grammar\"\x7d\x7d" ∧
    questionTemplate [("topic", .str "Grammar")] ≠ "" ∧
    enhance "Base." [⟨some (.str "get_learning_progress"), [], .str "r",
      "\x7b\"analytics\": \x7b\"topics\": [\x7b\"status\": \"good\", \"topic\": \"T\", \"accuracy\": 80, \"total_questions\": 4\x7d]\x7d, \"success\": true\x7d", true⟩]
      = .ok "Base." ∧
    jsonParse "\x7b\"analytics\": \x7b\"topics\": [\x7b\"status\": \"good\", \"topic\": \"T\", \"accuracy\": 80, \"total_questions\": 4\x7d]\x7d, \"success\": true\x7d"
      = some (.obj [("analytics", .obj [("topics", .arr [.obj [("status", .str "good"),
          ("topic", .str "T"), ("accuracy", .num 80), ("total_questions", .num 4)]])]),
          ("success", .bool true)]) :=
  ⟨rfl, rfl, rfl, by decide, rfl, rfl⟩

/-- C8 amended: the post-processor scans only successful tool results
whose text contains one of the two literal gate substrings; within the
gate, the payload bounded by the first opening and last closing brace is
parsed, and an unparsable or unextractable payload is silently skipped;
a parsed payload appends the question template only when it has a
`question` object and a truthy `success` field, and appends the progress
rendering (capped at the first five topics) only when it has an
`analytics` object with a `topics` list and a truthy `success` field; a
parsed payload with falsy `success` is skipped; an uncaught enhancement
exception is absorbed by the responder into the fixed apology, and the
responder always appends exactly one assistant message, so this step
never fails the overall response. -/
theorem C8_amended_enhancement :
    (∀ r : ToolResult, r.success = false → enhanceOne r = .ok none) ∧
    (∀ r : ToolResult,
      (substrOf gateSuccess r.result || substrOf gateQuestion r.result) = false →
      enhanceOne r = .ok none) ∧
    (∀ r : ToolResult, r.success = true →
      (substrOf gateSuccess r.result || substrOf gateQuestion r.result) = true →
      extractPayload r.result = none →
      enhanceOne r = .ok none) ∧
    (∀ (r : ToolResult) (js : String), r.success = true →
      (substrOf gateSuccess r.result || substrOf gateQuestion r.result) = true →
      extractPayload r.result = some js → jsonParse js = none →
      enhanceOne r = .ok none) ∧
    (∀ (r : ToolResult) (js : String) (fs qd : List (String × JValue)),
      r.success = true →
      (substrOf gateSuccess r.result || substrOf gateQuestion r.result) = true →
      extractPayload r.result = some js → jsonParse js = some (.obj fs) →
      jlookup fs "question" = some (.obj qd) →
      truthyOpt (jlookup fs "success") = true →
      enhanceOne r = .ok (some (questionTemplate qd))) ∧
    (∀ (r : ToolResult) (js : String) (fs : List (String × JValue)),
      r.success = true →
      (substrOf gateSuccess r.result || substrOf gateQuestion r.result) = true →
      extractPayload r.result = some js → jsonParse js = some (.obj fs) →
      truthyOpt (jlookup fs "success") = false →
      enhanceOne r = .ok none) ∧
    (∀ (r : ToolResult) (js : String) (fs afs : List (String × JValue))
        (ts : List JValue) (rows : String),
      r.success = true →
      (substrOf gateSuccess r.result || substrOf gateQuestion r.result) = true →
      extractPayload r.result = some js → jsonParse js = some (.obj fs) →
      jlookup fs "question" = none →
      jlookup fs "analytics" = some (.obj afs) →
      truthyOpt (jlookup fs "success") = true →
      (JValue.obj afs).truthy = true →
      jlookup afs "topics" = some (.arr ts) →
      renderTopics (ts.take 5) = .ok rows →
      enhanceOne r = .ok (some (progressHeader ++ rows))) ∧
    (∀ (rl : String → LLMBehavior) (s : AgentState) (t e : String),
      rl ((lastHuman s.messages).getD "") = .replies t →
      enhance t s.tool_results = .error e →
      responder_output rl s = responderApology) ∧
    (∀ (rl : String → LLMBehavior) (s : AgentState),
      responder_node rl s
        = { s with messages := s.messages ++ [.ai (responder_output rl s)] }) := by
  refine ⟨?_, ?_, ?_, ?_, ?_, ?_, ?_, ?_, fun _ _ => rfl⟩
  · intro r h
    simp [enhanceOne, h]
  · intro r hg
    cases hs : r.success <;> simp [enhanceOne, hs, hg]
  · intro r hs hg he
    simp [enhanceOne, hs, hg, he]
  · intro r js hs hg he hp
    simp [enhanceOne, hs, hg, he, hp]
  · intro r js fs qd hs hg he hp hq hsuc
    simp [enhanceOne, hs, hg, he, hp, payloadAction, hq, hsuc]
  · intro r js fs hs hg he hp hsuc
    simp [enhanceOne, hs, hg, he, hp, payloadAction, hsuc]
  · intro r js fs afs ts rows hs hg he hp hqn ha hsuc htr htop hrows
    simp [enhanceOne, hs, hg, he, hp, payloadAction, hqn, ha, hsuc, htr, hrows, htop]
  · intro rl s t e hbr henh
    unfold responder_output
    rw [hbr]
    show (match enhance t s.tool_results with
      | .ok final => final
      | .error _ => responderApology) = responderApology
    rw [henh]

/-- Witness for C8 amended: a gated payload with a question object and a
truthy success flag appends exactly the question template, and a failed
result is skipped. -/
theorem C8_amended_enhancement_witness :
    enhanceOne ⟨some (.str "get_practice_question"), [], .str "r",
        "\x7b\"success\": true, \"question\": \x7b\"topic\": \"Math\"\x7d\x7d", true⟩
      = .ok (some (questionTemplate [("topic", .str "Math")])) ∧
    enhanceOne ⟨some (.str "t"), [], .str "r", "anything", false⟩ = .ok none :=
  ⟨C8_amended_enhancement.2.2.2.2.1
      ⟨some (.str "get_practice_question"), [], .str "r",
        "\x7b\"success\": true, \"question\": \x7b\"topic\": \"Math\"\x7d\x7d", true⟩
      "\x7b\"success\": true, \"question\": \x7b\"topic\": \"Math\"\x7d\x7d"
      [("success", .bool true), ("question", .obj [("topic", .str "Math")])]
      [("topic", .str "Math")] rfl rfl rfl rfl rfl rfl,
   C8_amended_enhancement.1 ⟨some (.str "t"), [], .str "r", "anything", false⟩ rfl⟩

end AgentProof
